import Mathlib

/-!
Verification of the chunked worker-pool execution engine of the Segframe
repository (src/Utils/ParallelUtils.py), containing `multiprocess_run` and
`multigpu_run`.  The Python functions are shallowly embedded as executable
Lean definitions: Python lists become `List`, Python `None` becomes
`Option.none`, a worker task that may raise becomes a function into
`Except PyErr`, and the observable side effects of a run (pool creation,
pool shutdown, number of task submissions, the tqdm progress trace) are
recorded in an explicit outcome structure.
-/

namespace ParallelUtils

/-- Errors a run of the engine can surface.  `zeroDivisionError` models the
Python `ZeroDivisionError` raised by `len(data) % step_size` when
`step_size == 0`; `typeError` models `list.extend(None)`; `indexError`
models `res[k]` with `k` out of range; `valueError` models the
`ValueError("Number of processes must be at least 1")` raised by
`multiprocessing.Pool` when created with `processes < 1`; `user s`
models an exception of class `s` raised inside the work callback. -/
inductive PyErr where
  | zeroDivisionError : PyErr
  | typeError : PyErr
  | indexError : PyErr
  | valueError : PyErr
  | user : String → PyErr
deriving DecidableEq, Repr

/-- State visible to the submission loop of `multiprocess_run`: `data` is
the caller-supplied workload (never written by the source), `datapoints`
is the local working array initialised by `np.asarray(data)` and rebound
by `np.delete` (which returns a fresh array) once per iteration. -/
structure MPStore (α : Type) where
  data : List α
  datapoints : List α
deriving DecidableEq, Repr

/-- Model of the submission loop of `multiprocess_run` (source lines 39-56):
`e` is the per-iteration `end_idx` (the source computes
`end_idx = min step_size (len data)`, constant across iterations), `k` is
the number of remaining iterations (`step` in the source).  Each iteration
takes `datapoints[:end_idx]` as the chunk and rebinds `datapoints` to
`np.delete(datapoints, np.s_[:end_idx], axis=0)`, i.e. drops the first
`end_idx` entries; the caller's `data` is never touched. -/
def mpSubmitLoop (e : Nat) : Nat → MPStore α → List (List α) × MPStore α
  | 0, st => ([], st)
  | k + 1, st =>
    let cur := st.datapoints.take e
    let rest := mpSubmitLoop e k ⟨st.data, st.datapoints.drop e⟩
    (cur :: rest.1, rest.2)

/-- Model of the Python expression
`int(len(data)/step_size) + (len(data)%step_size > 0)` (source line 27).
Python `int(x/y)` on ints is division truncated towards zero
(`Int.tdiv`) and Python `%` is the floor-convention remainder
(`Int.fmod`); the boolean is coerced to `0` or `1` by the addition. -/
def pyStepCount (N : Nat) (S : Int) : Int :=
  Int.tdiv (N : Int) S + (if 0 < Int.fmod (N : Int) S then 1 else 0)

/-- Chunks submitted by `multiprocess_run` for a nonzero chunk size `S`,
together with the final store (source lines 27 and 39-56).  The loop body
runs `step` times when `step > 0` and not at all otherwise
(`range(step)` is empty for `step <= 0`). -/
def multiprocess_chunks_store (S : Int) (data : List α) :
    List (List α) × MPStore α :=
  if pyStepCount data.length S ≤ 0 then ([], ⟨data, data⟩)
  else mpSubmitLoop (min S.toNat data.length)
    (pyStepCount data.length S).toNat ⟨data, data⟩

/-- Chunks submitted by `multiprocess_run` for a nonzero chunk size. -/
def multiprocess_chunks (S : Int) (data : List α) : List (List α) :=
  (multiprocess_chunks_store S data).1

theorem mpSubmitLoop_fst (e : Nat) :
    ∀ (k : Nat) (st : MPStore α),
      (mpSubmitLoop e k st).1 =
        (List.range k).map (fun i => (st.datapoints.drop (i * e)).take e)
  | 0, _ => rfl
  | k + 1, st => by
    rw [mpSubmitLoop, List.range_succ_eq_map, List.map_cons]
    refine congrArg₂ List.cons (by simp) ?_
    rw [mpSubmitLoop_fst e k ⟨st.data, st.datapoints.drop e⟩, List.map_map]
    refine List.map_congr_left (fun i _ => ?_)
    simp only [Function.comp_apply, List.drop_drop]
    rw [Nat.succ_mul, Nat.add_comm (i * e) e]

theorem mpSubmitLoop_snd (e : Nat) :
    ∀ (k : Nat) (st : MPStore α),
      (mpSubmitLoop e k st).2 = ⟨st.data, st.datapoints.drop (k * e)⟩
  | 0, st => by simp [mpSubmitLoop]
  | k + 1, st => by
    rw [mpSubmitLoop, mpSubmitLoop_snd e k ⟨st.data, st.datapoints.drop e⟩]
    simp only [List.drop_drop]
    rw [Nat.succ_mul, Nat.add_comm (k * e) e]

theorem flatten_slices (X : List α) (e : Nat) :
    ∀ k : Nat,
      (List.flatten ((List.range k).map
        (fun i => (X.drop (i * e)).take e))) = X.take (k * e)
  | 0 => by simp
  | k + 1 => by
    rw [List.range_succ, List.map_append, List.flatten_append,
      flatten_slices X e k]
    simp only [List.map_cons, List.map_nil, List.flatten_cons,
      List.flatten_nil, List.append_nil]
    rw [Nat.succ_mul, List.take_add]

theorem nat_ceil_formula (N S : Nat) (hS : 0 < S) :
    (N + S - 1) / S = N / S + (if N % S = 0 then 0 else 1) := by
  have hdm := Nat.div_add_mod N S
  have hr : N % S < S := Nat.mod_lt _ hS
  rcases Nat.eq_zero_or_pos (N % S) with h0 | h0
  · have h1 : N + S - 1 = S * (N / S) + (S - 1) := by omega
    have h2 : (S * (N / S) + (S - 1)) / S = N / S + (S - 1) / S :=
      Nat.mul_add_div hS _ _
    have h3 : (S - 1) / S = 0 := Nat.div_eq_of_lt (by omega)
    rw [h1, h2, h3, if_pos h0]
  · have hms : S * (N / S + 1) = S * (N / S) + S := Nat.mul_succ S (N / S)
    have h1 : N + S - 1 = S * (N / S + 1) + (N % S - 1) := by omega
    have h2 : (S * (N / S + 1) + (N % S - 1)) / S
        = (N / S + 1) + (N % S - 1) / S := Nat.mul_add_div hS _ _
    have h3 : (N % S - 1) / S = 0 := Nat.div_eq_of_lt (by omega)
    rw [h1, h2, h3, if_neg (by omega)]

/-- Characterisation of the step count for a positive chunk size: the
Python expression on line 27 computes the ceiling of `N / S`. -/
theorem pyStepCount_pos (N S : Nat) (hS : 0 < S) :
    pyStepCount N (S : Int) = ((N + S - 1) / S : Nat) := by
  unfold pyStepCount
  rw [← Int.ofNat_tdiv, ← Int.ofNat_fmod, nat_ceil_formula N S hS]
  have hiff : ((0 : Int) < ((N % S : Nat) : Int)) ↔ 0 < N % S := by
    exact_mod_cast Iff.rfl
  rcases Nat.eq_zero_or_pos (N % S) with h0 | h0
  · rw [if_neg (by omega), if_pos h0]
    push_cast
    omega
  · rw [if_pos (hiff.mpr h0), if_neg (by omega)]
    push_cast
    omega

/-- For a negative chunk size the computed step count is nonpositive, so
the submission loop body never runs. -/
theorem pyStepCount_neg (N : Nat) (S : Int) (hS : S < 0) :
    pyStepCount N S ≤ 0 := by
  unfold pyStepCount
  obtain ⟨k, rfl⟩ : ∃ k, S = Int.negSucc k := by
    cases S with
    | ofNat n => exact absurd hS (Int.ofNat_nonneg n).not_lt
    | negSucc k => exact ⟨k, rfl⟩
  have htd : Int.tdiv (N : Int) (Int.negSucc k) ≤ 0 := by
    have hns : Int.negSucc k = -((k + 1 : Nat) : Int) := rfl
    rw [hns, Int.tdiv_neg]
    have := Int.tdiv_nonneg (a := (N : Int)) (b := ((k + 1 : Nat) : Int))
      (by positivity) (by positivity)
    omega
  have hfm : Int.fmod (N : Int) (Int.negSucc k) ≤ 0 := by
    cases N with
    | zero => simp
    | succ m =>
      show Int.fmod (Int.ofNat (m + 1)) (Int.negSucc k) ≤ 0
      rw [show Int.fmod (Int.ofNat (m + 1)) (Int.negSucc k) =
        Int.subNatNat (m % (k + 1)) k from rfl, Int.subNatNat_eq_coe]
      have := Nat.mod_lt m (y := k + 1) (by omega)
      omega
  rw [if_neg (by omega)]
  omega

/-- Model of `datapoints_db[k].extend(res[k])` for one bucket: a bucket is
always a Python list (`some`), and extending it with the sequence
`some rs` appends, while `list.extend(None)` raises `TypeError`. -/
def extendBucket (b r : Option (List β)) : Except PyErr (Option (List β)) :=
  match b, r with
  | some bs, some rs => .ok (some (bs ++ rs))
  | some _, none => .error .typeError
  | none, _ => .error .typeError

/-- Prepends an extended bucket to the outcome of extending the remaining
buckets, propagating any error from the latter. -/
def consBucket (nb : Option (List β))
    (rest : Except PyErr (List (Option (List β)))) :
    Except PyErr (List (Option (List β))) :=
  match rest with
  | .error e => .error e
  | .ok others => .ok (nb :: others)

/-- Model of the inner loop `for k in range(output_dim):
datapoints_db[k].extend(res[k])` (source lines 70-71), driven by the
bucket list (which has length `output_dim` by construction).  When the
chunk result `res` is shorter than `output_dim`, the Python subscript
`res[k]` raises `IndexError`; surplus entries of `res` are ignored. -/
def extendAll :
    List (Option (List β)) → List (Option (List β)) →
      Except PyErr (List (Option (List β)))
  | [], _ => .ok []
  | _ :: _, [] => .error .indexError
  | b :: bs, r :: rs =>
    match extendBucket b r with
    | .error e => .error e
    | .ok nb => consBucket nb (extendAll bs rs)

/-- Model of the aggregation loop (source lines 68-71): handles are
resolved by `semaphores[i].get()` in submission order; a worker exception
re-raises there, and each resolved tuple is folded into the buckets,
which start as `[[] for i in range(output_dim)]`. -/
def resolveAndMerge (db : List (Option (List β)))
    (r : Except PyErr (List (Option (List β)))) :
    Except PyErr (List (Option (List β))) :=
  match r with
  | .error e => .error e
  | .ok x => extendAll db x

def aggregate (output_dim : Nat)
    (results : List (Except PyErr (List (Option (List β))))) :
    Except PyErr (List (Option (List β))) :=
  results.foldlM resolveAndMerge (List.replicate output_dim (some []))

/-- Observable outcome of one invocation of `multiprocess_run`:
the returned value or the exception that escaped, whether the pool was
created (workers spawned), how many times `pool.close()` / `pool.join()`
ran, how many chunks were submitted (each submitted chunk invokes the
work callback exactly once in some worker), the order in which the
progress-bar completion callbacks fired, and the caller's workload as it
stands after the run. -/
structure MPOutcome (α β : Type) where
  outcome : Except PyErr (List (List β))
  poolCreated : Bool
  closes : Nat
  joins : Nat
  submitted : Nat
  progress : List Nat
  finalData : List α
deriving Repr

/-- Shallow embedding of `multiprocess_run` (source lines 12-86).  The
work callback `f` maps a chunk to the tuple of `output_dim` sequences it
returns (`none` modelling Python `None`) or to the exception it raises.
`completion` is the order in which worker tasks finish, which drives only
the progress-bar callbacks; `semaphores[i].get()` identifies results by
submission index.  With `step_size = 0`, line 27 raises
`ZeroDivisionError` before the pool is created; an exception during
aggregation escapes before `pool.close()` / `pool.join()` on lines 80-81
are reached. -/
def multiprocess_run (f : List α → Except PyErr (List (Option (List β))))
    (S : Int) (data : List α) (output_dim : Nat) (completion : List Nat) :
    MPOutcome α β :=
  if S = 0 then
    { outcome := .error .zeroDivisionError, poolCreated := false,
      closes := 0, joins := 0, submitted := 0, progress := [],
      finalData := data }
  else
    let cs := multiprocess_chunks_store S data
    let results := cs.1.map f
    match aggregate output_dim results with
    | .error e =>
      { outcome := .error e, poolCreated := true, closes := 0, joins := 0,
        submitted := cs.1.length, progress := completion,
        finalData := cs.2.data }
    | .ok db =>
      { outcome := .ok (db.filterMap id), poolCreated := true, closes := 1,
        joins := 1, submitted := cs.1.length, progress := completion,
        finalData := cs.2.data }

theorem slice_min_eq (data : List α) (i S : Nat) :
    (data.drop (i * min S data.length)).take (min S data.length)
      = (data.drop (i * S)).take S := by
  rcases le_or_lt S data.length with h | h
  · rw [Nat.min_eq_left h]
  · rw [Nat.min_eq_right h.le]
    cases i with
    | zero =>
      simp only [Nat.zero_mul, List.drop_zero]
      rw [List.take_length, List.take_of_length_le h.le]
    | succ k =>
      rw [List.drop_eq_nil_of_le
          (by calc data.length = 1 * data.length := (Nat.one_mul _).symm
                _ ≤ (k + 1) * data.length := Nat.mul_le_mul_right _ (by omega)),
        List.drop_eq_nil_of_le
          (by calc data.length ≤ S := h.le
                _ = 1 * S := (Nat.one_mul _).symm
                _ ≤ (k + 1) * S := Nat.mul_le_mul_right _ (by omega))]
      simp

/-- Explicit form of the chunks submitted by `multiprocess_run` for a
positive chunk size: chunk `i` is the slice of the workload starting at
`i * S` of nominal length `S`. -/
theorem multiprocess_chunks_eq (S : Nat) (hS : 0 < S) (data : List α) :
    multiprocess_chunks (S : Int) data =
      (List.range ((data.length + S - 1) / S)).map
        (fun i => (data.drop (i * S)).take S) := by
  unfold multiprocess_chunks multiprocess_chunks_store
  rw [pyStepCount_pos data.length S hS]
  rcases Nat.eq_zero_or_pos ((data.length + S - 1) / S) with h0 | h0
  · rw [h0]
    norm_num
  · rw [if_neg (not_le.mpr (by exact_mod_cast h0))]
    rw [mpSubmitLoop_fst]
    simp only [Int.toNat_natCast]
    exact List.map_congr_left (fun i _ => slice_min_eq data i S)

theorem lt_ceil_iff (N S i : Nat) (hS : 0 < S) :
    i < (N + S - 1) / S ↔ i * S < N := by
  have h1 := (Nat.le_div_iff_mul_le (k := S) hS (x := i + 1) (y := N + S - 1))
  have h2 : (i + 1) * S = i * S + S := Nat.succ_mul i S
  omega

theorem multiprocess_chunks_flatten (S : Nat) (hS : 0 < S) (data : List α) :
    List.flatten (multiprocess_chunks (S : Int) data) = data := by
  rw [multiprocess_chunks_eq S hS data, flatten_slices]
  refine List.take_of_length_le ?_
  by_contra hlt
  push_neg at hlt
  exact absurd ((lt_ceil_iff data.length S _ hS).mpr hlt) (lt_irrefl _)

theorem multiprocess_chunks_store_data (S : Int) (data : List α) :
    (multiprocess_chunks_store S data).2.data = data := by
  unfold multiprocess_chunks_store
  split
  · rfl
  · rw [mpSubmitLoop_snd]

/-- C4: for every workload of length `N` and chunk size `S > 0`,
`multiprocess_run` produces exactly `ceil(N/S)` chunks, chunk `i` being
the slice at index range `[i*S, min((i+1)*S, N))`; the chunks are
non-overlapping, cover the workload with no gap (their concatenation in
submission order is the workload itself), no zero-length chunk is
submitted, and `N = 10, S = 4` yields exactly the chunks
`[0,4), [4,8), [8,10)`. -/
theorem C4_chunk_coverage :
    (∀ (S : Nat) (data : List Nat), 0 < S →
      (multiprocess_chunks (S : Int) data).length
          = (data.length + S - 1) / S
      ∧ (∀ i (hi : i < (multiprocess_chunks (S : Int) data).length),
          (multiprocess_chunks (S : Int) data).get ⟨i, hi⟩
            = (data.drop (i * S)).take S
          ∧ ((data.drop (i * S)).take S).length
            = min ((i + 1) * S) data.length - i * S)
      ∧ List.flatten (multiprocess_chunks (S : Int) data) = data
      ∧ ∀ c ∈ multiprocess_chunks (S : Int) data, c ≠ [])
    ∧ multiprocess_chunks (4 : Int) (List.range 10)
        = [[0, 1, 2, 3], [4, 5, 6, 7], [8, 9]] := by
  constructor
  · intro S data hS
    refine ⟨by rw [multiprocess_chunks_eq S hS]; simp, ?_, ?_, ?_⟩
    · intro i hi
      constructor
      · simp only [multiprocess_chunks_eq S hS, List.get_eq_getElem,
          List.getElem_map, List.getElem_range]
      · have hsm : (i + 1) * S = i * S + S := Nat.succ_mul i S
        simp only [List.length_take, List.length_drop]
        omega
    · exact multiprocess_chunks_flatten S hS data
    · intro c hc
      rw [multiprocess_chunks_eq S hS] at hc
      obtain ⟨i, hi, rfl⟩ := List.mem_map.mp hc
      rw [List.mem_range] at hi
      have hlt := (lt_ceil_iff data.length S i hS).mp hi
      refine List.ne_nil_of_length_pos ?_
      simp only [List.length_take, List.length_drop]
      omega
  · rfl

/-- Witness for C4 at the concrete input of the claim
(`N = 10`, `S = 4`). -/
theorem C4_chunk_coverage_witness :
    List.flatten (multiprocess_chunks (4 : Int) (List.range 10))
      = List.range 10 :=
  (C4_chunk_coverage.1 4 (List.range 10) (by decide)).2.2.1

/-- C9: `multiprocess_run` leaves the caller-supplied workload unchanged
on every path (including the `step_size = 0` error path and worker-error
paths): partitioning rebinds only the local working array (`np.delete`
returns a fresh array), so after the run the original data has the same
length and elements as before. -/
theorem C9_workload_preserved
    (f : List Nat → Except PyErr (List (Option (List Nat))))
    (S : Int) (data : List Nat) (output_dim : Nat) (completion : List Nat) :
    (multiprocess_run f S data output_dim completion).finalData = data
    ∧ (multiprocess_run f S data output_dim completion).finalData.length
        = data.length := by
  have hst := multiprocess_chunks_store_data S data
  have hmain :
      (multiprocess_run f S data output_dim completion).finalData = data := by
    unfold multiprocess_run
    by_cases hS : S = 0
    · rw [if_pos hS]
    · rw [if_neg hS]
      cases hagg : aggregate output_dim
          ((multiprocess_chunks_store S data).1.map f) with
      | error e => simp only [hagg]; exact hst
      | ok db => simp only [hagg]; exact hst
  exact ⟨hmain, by rw [hmain]⟩

/-- Folding chunk results into the buckets, starting from an arbitrary
bucket state; `aggregate` is this fold started at the fresh buckets. -/
def aggFold (db : List (Option (List β)))
    (results : List (Except PyErr (List (Option (List β))))) :
    Except PyErr (List (Option (List β))) :=
  results.foldlM resolveAndMerge db

theorem aggregate_eq_aggFold (output_dim : Nat)
    (results : List (Except PyErr (List (Option (List β))))) :
    aggregate output_dim results
      = aggFold (List.replicate output_dim (some [])) results := rfl

theorem aggFold_error (db : List (Option (List β))) (e : PyErr)
    (rs : List (Except PyErr (List (Option (List β))))) :
    aggFold db ((Except.error e) :: rs) = .error e := rfl

theorem aggFold_ok_cons (db db' : List (Option (List β)))
    (x : List (Option (List β)))
    (rs : List (Except PyErr (List (Option (List β)))))
    (h : extendAll db x = .ok db') :
    aggFold db ((Except.ok x) :: rs) = aggFold db' rs := by
  unfold aggFold
  rw [List.foldlM_cons]
  show (resolveAndMerge db (Except.ok x) >>= fun init =>
    List.foldlM _ init rs) = _
  rw [show resolveAndMerge db (Except.ok x) = extendAll db x from rfl, h]
  rfl

theorem aggFold_ok_cons_error (db : List (Option (List β)))
    (x : List (Option (List β))) (e : PyErr)
    (rs : List (Except PyErr (List (Option (List β)))))
    (h : extendAll db x = .error e) :
    aggFold db ((Except.ok x) :: rs) = .error e := by
  unfold aggFold
  rw [List.foldlM_cons]
  show (resolveAndMerge db (Except.ok x) >>= fun init =>
    List.foldlM _ init rs) = _
  rw [show resolveAndMerge db (Except.ok x) = extendAll db x from rfl, h]
  rfl

theorem extendAll_cons (b r : Option (List β))
    (bs rs : List (Option (List β))) :
    extendAll (b :: bs) (r :: rs)
      = match extendBucket b r with
        | .error e => .error e
        | .ok nb => consBucket nb (extendAll bs rs) := rfl

/-- Whenever the bucket-extension loop for one chunk succeeds, the bucket
count is unchanged and every bucket is still a Python list
(`extendBucket` only ever returns `some`). -/
theorem extendAll_ok :
    ∀ (db x db' : List (Option (List β))), extendAll db x = .ok db' →
      db'.length = db.length ∧ ∀ b ∈ db', b.isSome
  | [], _, db', h => by
    cases h
    exact ⟨rfl, by simp⟩
  | _ :: _, [], db', h => by cases h
  | b :: bs, r :: rs, db', h => by
    rw [extendAll_cons] at h
    cases hb : extendBucket b r with
    | error e => rw [hb] at h; cases h
    | ok nb =>
      rw [hb] at h
      have h2 : consBucket nb (extendAll bs rs) = .ok db' := h
      cases hrest : extendAll bs rs with
      | error e =>
        rw [hrest] at h2
        have h3 : (Except.error e : Except PyErr (List (Option (List β))))
            = Except.ok db' := h2
        cases h3
      | ok rest =>
        rw [hrest] at h2
        have h3 : Except.ok (nb :: rest) = Except.ok db' := h2
        cases h3
        have hnb : nb.isSome := by
          cases b with
          | none => cases hb
          | some bs0 =>
            cases r with
            | none => cases hb
            | some rs0 => cases hb; rfl
        have ih := extendAll_ok bs rs rest hrest
        refine ⟨by simp [ih.1], ?_⟩
        intro o ho
        rcases List.mem_cons.mp ho with rfl | ho
        · exact hnb
        · exact ih.2 o ho

/-- Successful bucket extension for a clean chunk result: if every bucket
is a list and the chunk result has at least as many entries as buckets,
all of them lists, the extension succeeds. -/
theorem extendAll_clean :
    ∀ (db x : List (Option (List β))), (∀ b ∈ db, b.isSome) →
      db.length ≤ x.length → (∀ o ∈ x.take db.length, o.isSome) →
      ∃ db', extendAll db x = .ok db'
  | [], x, _, _, _ => ⟨[], rfl⟩
  | b :: bs, [], _, hlen, _ => by simp at hlen
  | b :: bs, r :: rs, hdb, hlen, hx => by
    obtain ⟨b0, rfl⟩ := Option.isSome_iff_exists.mp (hdb b (by simp))
    obtain ⟨r0, rfl⟩ := Option.isSome_iff_exists.mp
      (hx r (by simp [List.take_succ_cons]))
    obtain ⟨db', hdb'⟩ := extendAll_clean bs rs
      (fun o ho => hdb o (List.mem_cons_of_mem _ ho))
      (by simpa using hlen)
      (fun o ho => by
        refine hx o ?_
        simp only [List.length_cons, List.take_succ_cons]
        exact List.mem_cons_of_mem _ ho)
    refine ⟨some (b0 ++ r0) :: db', ?_⟩
    rw [extendAll_cons,
      show extendBucket (some b0) (some r0) = .ok (some (b0 ++ r0)) from rfl]
    rw [hdb']
    rfl


/-- Invariant of the aggregation fold: on success the bucket count is
preserved and every bucket is still a list. -/
theorem aggFold_ok_inv :
    ∀ (results : List (Except PyErr (List (Option (List β)))))
      (db db' : List (Option (List β))), (∀ b ∈ db, b.isSome) →
      aggFold db results = .ok db' →
      db'.length = db.length ∧ ∀ b ∈ db', b.isSome
  | [], db, db', hdb, h => by
    have h2 : Except.ok db = Except.ok db' := h
    cases h2
    exact ⟨rfl, hdb⟩
  | .error e :: rs, db, db', hdb, h => by
    rw [aggFold_error] at h
    cases h
  | .ok x :: rs, db, db', hdb, h => by
    cases hx : extendAll db x with
    | error e =>
      rw [aggFold_ok_cons_error db x e rs hx] at h
      cases h
    | ok db1 =>
      rw [aggFold_ok_cons db db1 x rs hx] at h
      have hinv := extendAll_ok db x db1 hx
      have ih := aggFold_ok_inv rs db1 db' hinv.2 h
      exact ⟨ih.1.trans hinv.1, ih.2⟩

theorem filterMap_id_length_of_isSome :
    ∀ (db : List (Option γ)), (∀ b ∈ db, b.isSome) →
      (db.filterMap id).length = db.length
  | [], _ => rfl
  | b :: bs, h => by
    obtain ⟨b0, rfl⟩ := Option.isSome_iff_exists.mp (h b (by simp))
    simp only [List.filterMap_cons, id, List.length_cons]
    rw [filterMap_id_length_of_isSome bs
      (fun o ho => h o (List.mem_cons_of_mem _ ho))]

/-- Error localisation for the aggregation loop: if the result of chunk
`i` is an exception and every earlier chunk resolved to a clean tuple
(at least `dim` entries, the first `dim` of them lists), the fold raises
exactly that exception when it reaches handle `i`. -/
theorem aggFold_error_at (dim : Nat) :
    ∀ (results : List (Except PyErr (List (Option (List β)))))
      (i : Nat) (db : List (Option (List β))) (e : PyErr),
      db.length = dim → (∀ b ∈ db, b.isSome) →
      results[i]? = some (.error e) →
      (∀ j, j < i → ∃ x, results[j]? = some (.ok x) ∧ dim ≤ x.length
        ∧ ∀ o ∈ x.take dim, o.isSome) →
      aggFold db results = .error e
  | [], i, db, e, _, _, hi, _ => by simp at hi
  | r :: rs, 0, db, e, _, _, hi, _ => by
    rw [List.getElem?_cons_zero] at hi
    cases hi
    exact aggFold_error db e rs
  | r :: rs, i + 1, db, e, hlen, hdb, hi, hprev => by
    obtain ⟨x, hx0, hxlen, hxsome⟩ := hprev 0 (Nat.succ_pos i)
    rw [List.getElem?_cons_zero] at hx0
    cases hx0
    obtain ⟨db1, hdb1⟩ := extendAll_clean db x hdb
      (by omega) (by rw [hlen]; exact hxsome)
    rw [aggFold_ok_cons db db1 x rs hdb1]
    have hinv := extendAll_ok db x db1 hdb1
    refine aggFold_error_at dim rs i db1 e (hinv.1.trans hlen) hinv.2 ?_ ?_
    · rw [List.getElem?_cons_succ] at hi
      exact hi
    · intro j hj
      obtain ⟨y, hy, hylen, hysome⟩ := hprev (j + 1) (by omega)
      rw [List.getElem?_cons_succ] at hy
      exact ⟨y, hy, hylen, hysome⟩

/-- C2 (amended): if the task of a chunk raises, `multiprocess_run`
re-raises the same error class at the point that chunk's handle is
resolved (given that every earlier chunk resolved to a clean tuple), and
returns no partial result; however, contrary to the claim, `pool.close()`
and `pool.join()` are NOT executed on that error exit path — the source
has no try/finally around the aggregation loop, so the error propagates
before lines 80-81 and the worker pool is leaked. -/
theorem C2_failfast_error_path :
    (∀ (f : List Nat → Except PyErr (List (Option (List Nat))))
      (S : Int) (data : List Nat) (output_dim : Nat)
      (completion : List Nat) (e : PyErr), S ≠ 0 →
      aggregate output_dim ((multiprocess_chunks S data).map f) = .error e →
      (multiprocess_run f S data output_dim completion).outcome = .error e
      ∧ (multiprocess_run f S data output_dim completion).closes = 0
      ∧ (multiprocess_run f S data output_dim completion).joins = 0)
    ∧ (∀ (output_dim : Nat)
        (results : List (Except PyErr (List (Option (List Nat)))))
        (i : Nat) (e : PyErr),
        results[i]? = some (.error e) →
        (∀ j, j < i → ∃ x, results[j]? = some (.ok x)
          ∧ output_dim ≤ x.length ∧ ∀ o ∈ x.take output_dim, o.isSome) →
        aggregate output_dim results = .error e) := by
  constructor
  · intro f S data dim completion e hS hagg
    unfold multiprocess_chunks at hagg
    unfold multiprocess_run
    rw [if_neg hS]
    cases hagg2 : aggregate dim
        ((multiprocess_chunks_store S data).1.map f) with
    | error e2 =>
      have he : e2 = e := Except.error.inj (hagg2.symm.trans hagg)
      subst he
      simp [hagg2]
    | ok db =>
      exact absurd (hagg2.symm.trans hagg) (fun hc => by cases hc)
  · intro dim results i e hi hprev
    rw [aggregate_eq_aggFold]
    refine aggFold_error_at dim results i _ e (by simp) ?_ hi hprev
    intro b hb
    rw [List.eq_of_mem_replicate hb]
    rfl

/-- Counterexample to C2 as stated: with a single chunk whose task raises
`ValueError`, the error escapes `multiprocess_run`, but `pool.close()`
and `pool.join()` run zero times, not exactly once — the pool shutdown is
skipped on the error exit path. -/
theorem C2_failfast_counterexample :
    (multiprocess_run (fun _ => Except.error (PyErr.user "ValueError"))
        (1 : Int) [0] 1 [] : MPOutcome Nat Nat).outcome
      = .error (.user "ValueError")
    ∧ (multiprocess_run (fun _ => Except.error (PyErr.user "ValueError"))
        (1 : Int) [0] 1 [] : MPOutcome Nat Nat).closes = 0
    ∧ (multiprocess_run (fun _ => Except.error (PyErr.user "ValueError"))
        (1 : Int) [0] 1 [] : MPOutcome Nat Nat).joins = 0 :=
  ⟨rfl, rfl, rfl⟩

/-- Witness for C2 (amended) at a concrete input. -/
theorem C2_failfast_error_path_witness :
    (multiprocess_run (fun _ => Except.error (PyErr.user "RuntimeError"))
        (1 : Int) [0, 1] 1 [] : MPOutcome Nat Nat).outcome
      = .error (.user "RuntimeError") :=
  (C2_failfast_error_path.1
    (fun _ => Except.error (PyErr.user "RuntimeError"))
    1 [0, 1] 1 [] (.user "RuntimeError") (by decide) (by rfl)).1

/-- C3 (amended): the buckets are initialised as Python lists and only
ever extended, so none of them is ever `None`: the final
`filter(lambda x: not x is None, ...)` drops nothing and the returned
value always has exactly `output_dim` buckets (present-but-empty buckets
are retained as empty collections).  A work callback returning
`(seq, None)` for `output_dim = 2` does not yield a one-bucket result:
`datapoints_db[1].extend(None)` raises `TypeError` while the first
chunk's handle is aggregated. -/
theorem C3_bucket_count :
    (∀ (f : List Nat → Except PyErr (List (Option (List Nat))))
      (S : Int) (data : List Nat) (output_dim : Nat) (completion : List Nat)
      (t : List (List Nat)),
      (multiprocess_run f S data output_dim completion).outcome = .ok t →
      t.length = output_dim)
    ∧ (multiprocess_run (fun ch => .ok [some ch, none]) (1 : Int) [5] 2 []
        : MPOutcome Nat Nat).outcome = .error .typeError
    ∧ (multiprocess_run (fun ch => .ok [some ch, some []]) (1 : Int) [7] 2 []
        : MPOutcome Nat Nat).outcome = .ok [[7], []] := by
  refine ⟨?_, rfl, rfl⟩
  intro f S data dim completion t h
  unfold multiprocess_run at h
  by_cases hS : S = 0
  · rw [if_pos hS] at h
    cases h
  · rw [if_neg hS] at h
    cases hagg : aggregate dim
        ((multiprocess_chunks_store S data).1.map f) with
    | error e =>
      simp only [hagg] at h
      cases h
    | ok db =>
      simp only [hagg] at h
      cases h
      rw [aggregate_eq_aggFold] at hagg
      have hinv := aggFold_ok_inv _ _ _
        (fun b hb => by rw [List.eq_of_mem_replicate hb]; rfl) hagg
      rw [filterMap_id_length_of_isSome db hinv.2, hinv.1,
        List.length_replicate]

/-- Counterexample to C3 as stated: for the claimed input shape — every
chunk returning `(seq, None)` with `output_dim = 2` — the run does not
return a one-bucket tuple; it raises `TypeError` during aggregation of
the first chunk. -/
theorem C3_bucket_count_counterexample :
    (multiprocess_run (fun ch => .ok [some ch, none]) (1 : Int) [0] 2 []
        : MPOutcome Nat Nat).outcome = .error .typeError := rfl

/-- Witness for C3 (amended) at a concrete input. -/
theorem C3_bucket_count_witness :
    ([[0, 1, 2], [1, 2, 3]] : List (List Nat)).length = 2 :=
  C3_bucket_count.1 (fun ch => .ok [some ch, some (ch.map (· + 1))])
    2 [0, 1, 2] 2 [] [[0, 1, 2], [1, 2, 3]] rfl

theorem aggFold_single :
    ∀ (xs : List (List β)) (acc : List β),
      aggFold [some acc] (xs.map (fun x => Except.ok [some x]))
        = .ok [some (acc ++ xs.flatten)]
  | [], acc => by
    show Except.ok [some acc] = _
    simp
  | x :: xs, acc => by
    rw [List.map_cons,
      aggFold_ok_cons [some acc] [some (acc ++ x)] [some x] _ rfl,
      aggFold_single xs (acc ++ x)]
    simp

/-- Aggregation with a single output bucket concatenates the per-chunk
sequences in submission order. -/
theorem aggregate_single (xs : List (List β)) :
    aggregate 1 (xs.map (fun x => Except.ok [some x]))
      = .ok [some xs.flatten] := by
  rw [aggregate_eq_aggFold,
    show (List.replicate 1 (some []) : List (Option (List β)))
      = [some []] from rfl,
    aggFold_single xs []]
  rfl

/-- C1: with `output_dim = 1`, handles are resolved in submission order,
so the aggregated bucket is the image of the workload in workload order:
mapping `f` over each chunk yields exactly `data.map f` (for the identity
callback, the workload itself), independently of the completion order of
the tasks (which drives only the progress callbacks); in particular for
workload `[0..99]`, chunk size `10` and a callback doubling each element,
the aggregated bucket is `[0, 2, 4, ..., 198]` in that exact order. -/
theorem C1_order_preservation :
    (∀ (S : Nat) (data : List Nat) (f : Nat → Nat) (completion : List Nat),
      0 < S →
      (multiprocess_run (fun ch => .ok [some (ch.map f)]) (S : Int) data 1
        completion).outcome = .ok [data.map f])
    ∧ (∀ (f : List Nat → Except PyErr (List (Option (List Nat))))
        (S : Int) (data : List Nat) (output_dim : Nat) (c₁ c₂ : List Nat),
        (multiprocess_run f S data output_dim c₁).outcome
          = (multiprocess_run f S data output_dim c₂).outcome)
    ∧ (multiprocess_run (fun ch => .ok [some (ch.map (· * 2))]) (10 : Int)
        (List.range 100) 1 [] : MPOutcome Nat Nat).outcome
      = .ok [(List.range 100).map (· * 2)] := by
  refine ⟨?_, ?_, rfl⟩
  · intro S data f completion hS
    have hS0 : (S : Int) ≠ 0 := by exact_mod_cast hS.ne'
    have hmm : (multiprocess_chunks_store (S : Int) data).1.map
          (fun ch => (Except.ok [some (ch.map f)]
            : Except PyErr (List (Option (List Nat)))))
        = ((multiprocess_chunks (S : Int) data).map (List.map f)).map
            (fun x => Except.ok [some x]) := by
      rw [List.map_map]
      rfl
    have hagg : aggregate 1 ((multiprocess_chunks_store (S : Int) data).1.map
          (fun ch => (Except.ok [some (ch.map f)]
            : Except PyErr (List (Option (List Nat))))))
        = .ok [some (data.map f)] := by
      rw [hmm, aggregate_single, ← List.map_flatten,
        multiprocess_chunks_flatten S hS data]
    unfold multiprocess_run
    rw [if_neg hS0]
    simp [hagg]
  · intro f S data output_dim c₁ c₂
    unfold multiprocess_run
    by_cases hS : S = 0
    · simp [if_pos hS]
    · rw [if_neg hS, if_neg hS]
      cases hagg : aggregate output_dim
          ((multiprocess_chunks_store S data).1.map f) with
      | error e => simp [hagg]
      | ok db => simp [hagg]

/-- Witness for C1 at a concrete input with the identity callback. -/
theorem C1_order_preservation_witness :
    (multiprocess_run (fun ch => .ok [some (ch.map id)]) (3 : Int)
        [3, 1, 2] 1 [] : MPOutcome Nat Nat).outcome
      = .ok [[3, 1, 2].map id] :=
  C1_order_preservation.1 3 [3, 1, 2] id [] (by decide)

theorem filterMap_id_replicate_some (n : Nat) (a : List Nat) :
    (List.replicate n (some a)).filterMap id = List.replicate n a := by
  induction n with
  | zero => rfl
  | succ k ih => rw [List.replicate_succ, List.filterMap_cons, id,
      List.replicate_succ, ih]

/-- C7 (amended): only `step_size = 0` makes `multiprocess_run` fail
immediately — line 27 divides by `step_size`, raising
`ZeroDivisionError` (the code has no ConfigurationError class) before
the pool is created and before the work callback is ever invoked.  A
negative `step_size` does not fail at all: the computed step count is
nonpositive, so the submission loop body never runs, the callback is
never invoked, but the pool IS created and shut down, and a tuple of
`output_dim` empty buckets is returned. -/
theorem C7_invalid_chunk_size :
    (∀ (f : List Nat → Except PyErr (List (Option (List Nat))))
      (data : List Nat) (output_dim : Nat) (completion : List Nat),
      (multiprocess_run f 0 data output_dim completion).outcome
        = .error .zeroDivisionError
      ∧ (multiprocess_run f 0 data output_dim completion).poolCreated = false
      ∧ (multiprocess_run f 0 data output_dim completion).submitted = 0)
    ∧ (∀ (f : List Nat → Except PyErr (List (Option (List Nat))))
      (S : Int) (data : List Nat) (output_dim : Nat) (completion : List Nat),
      S < 0 →
      (multiprocess_run f S data output_dim completion).outcome
        = .ok (List.replicate output_dim [])
      ∧ (multiprocess_run f S data output_dim completion).submitted = 0
      ∧ (multiprocess_run f S data output_dim completion).poolCreated = true
      ∧ (multiprocess_run f S data output_dim completion).closes = 1) := by
  constructor
  · intro f data output_dim completion
    exact ⟨rfl, rfl, rfl⟩
  · intro f S data output_dim completion hS
    have hcs : multiprocess_chunks_store S data = ([], ⟨data, data⟩) := by
      unfold multiprocess_chunks_store
      rw [if_pos (pyStepCount_neg data.length S hS)]
    have hS0 : S ≠ 0 := by omega
    unfold multiprocess_run
    rw [if_neg hS0, hcs]
    refine ⟨?_, rfl, rfl, rfl⟩
    show Except.ok ((List.replicate output_dim (some [])).filterMap id) = _
    rw [filterMap_id_replicate_some]

/-- Counterexample to C7 as stated: with chunk size `-3` the run does not
fail with any error — it creates the pool (spawning workers), submits
nothing and returns an empty bucket. -/
theorem C7_invalid_chunk_size_counterexample :
    (multiprocess_run (fun ch => .ok [some ch]) (-3 : Int) (List.range 10)
        1 [] : MPOutcome Nat Nat).outcome = .ok [[]]
    ∧ (multiprocess_run (fun ch => .ok [some ch]) (-3 : Int) (List.range 10)
        1 [] : MPOutcome Nat Nat).poolCreated = true :=
  ⟨rfl, rfl⟩

/-- Witness for C7 (amended) at a concrete negative chunk size. -/
theorem C7_invalid_chunk_size_witness :
    (multiprocess_run (fun ch => .ok [some ch]) (-3 : Int) [0, 1, 2] 2 []
      : MPOutcome Nat Nat).outcome = .ok (List.replicate 2 []) :=
  (C7_invalid_chunk_size.2 (fun ch => .ok [some ch]) (-3) [0, 1, 2] 2 []
    (by decide)).1

/-- Step size recomputed by `multigpu_run` (source lines 130-136): the
caller-supplied `step_size` is overwritten in both branches. -/
def multigpu_step_size (N D : Nat) : Nat := if 1 < D then N / D else N

/-- Number of chunks produced by `multigpu_run` (source lines 130-136). -/
def multigpu_step (N D : Nat) : Nat :=
  if 1 < D then D + (if N % D ≠ 0 then 1 else 0) else 1

/-- Python slice `l[a:b]` with the usual clipping semantics. -/
def pySlice (l : List α) (p : Nat × Nat) : List α :=
  (l.drop p.1).take (p.2 - p.1)

/-- Index ranges of the chunks submitted by `multigpu_run` (source lines
155-162): chunk `i` covers `[i*step_size, min((i+1)*step_size, N))`. -/
def multigpu_slices (N D : Nat) : List (Nat × Nat) :=
  (List.range (multigpu_step N D)).map
    (fun i => (i * multigpu_step_size N D,
      min ((i + 1) * multigpu_step_size N D) N))

/-- Data chunks cut by `multigpu_run` from one of the two paired arrays
(the feature array; the label array is sliced with the same indices).
With `gpu_count = 0`, `multiprocessing.Pool(processes=0)` on source line
145 raises `ValueError` ("Number of processes must be at least 1")
before the slicing loop on lines 155-162 runs, so no chunk is produced
on that path. -/
def multigpu_chunks (X : List α) (D : Nat) :
    Except PyErr (List (List α)) :=
  if D < 1 then .error .valueError
  else .ok ((multigpu_slices X.length D).map (pySlice X))

/-- Device queue built by `multigpu_run` (source lines 138-143): only
when `gpu_count > 0`, one entry `dev % gpu_count` is enqueued for each
`dev in range(step)` — `step` entries, the chunk count, not the
worker-slot count. -/
def device_queue (N D : Nat) : Option (List Nat) :=
  if 0 < D then
    some ((List.range (multigpu_step N D)).map (fun dev => dev % D))
  else none

/-- Worker-process count of the pool created by `multigpu_run` (source
line 145): `processes = gpu_count`. -/
def multigpu_pool_processes (gpu_count : Nat) : Nat := gpu_count

/-- Shallow embedding of the chunking and aggregation of `multigpu_run`
(source lines 89-189): the caller-supplied `step_size` parameter is
shadowed by the recomputed value exactly as in the source (lines
130-136), then the pool is created with `processes = gpu_count` (line
145), which for `gpu_count < 1` raises
`ValueError("Number of processes must be at least 1")` in the standard
library before the slicing loop runs; otherwise the paired arrays are
sliced with identical index ranges (both clipped against the feature
array's length, line 130) and the flat result list is extended with each
handle's result in submission order (lines 181-182). -/
def multigpu_run (f : List α × List γ → List β) (data : List α × List γ)
    (gpu_count : Nat) ( step_size : Option Int) : Except PyErr (List β) :=
  let step_size := multigpu_step_size data.1.length gpu_count
  let step := multigpu_step data.1.length gpu_count
  if gpu_count < 1 then .error .valueError
  else .ok (List.flatten (((List.range step).map
    (fun i =>
      (pySlice data.1 (i * step_size, min ((i + 1) * step_size)
        data.1.length),
       pySlice data.2 (i * step_size, min ((i + 1) * step_size)
        data.1.length)))).map f))

theorem take_min_length (l : List α) (m : Nat) :
    l.take (min m l.length) = l.take m := by
  rcases le_or_lt m l.length with h | h
  · rw [Nat.min_eq_left h]
  · rw [Nat.min_eq_right h.le, List.take_length, List.take_of_length_le h.le]

theorem flatten_gpu_slices (X : List α) (s : Nat) :
    ∀ k : Nat,
      List.flatten ((List.range k).map
        (fun i => (X.drop (i * s)).take (min ((i + 1) * s) X.length - i * s)))
        = X.take (k * s)
  | 0 => by simp
  | k + 1 => by
    rw [List.range_succ, List.map_append, List.flatten_append,
      flatten_gpu_slices X s k]
    simp only [List.map_cons, List.map_nil, List.flatten_cons,
      List.flatten_nil, List.append_nil]
    have hsm : (k + 1) * s = k * s + s := Nat.succ_mul k s
    rcases le_or_lt (k * s) X.length with hk | hk
    · have hmin : min ((k + 1) * s) X.length - k * s
          = min s (X.length - k * s) := by omega
      rw [hmin, show min s (X.length - k * s)
          = min s ((X.drop (k * s)).length) by rw [List.length_drop],
        take_min_length, ← List.take_add, ← hsm]
    · rw [show min ((k + 1) * s) X.length - k * s = 0 by omega]
      simp only [List.take_zero, List.append_nil]
      rw [List.take_of_length_le hk.le, List.take_of_length_le (by omega)]

/-- C5 (amended): in `multigpu_run` over a workload of length `N` with
device count `D > 1`, the per-chunk step size is `floor(N/D)` and the
chunk count is `D + (1 if N % D != 0 else 0)`, each of the first `D`
chunks being the slice of width `floor(N/D)` at `i*floor(N/D)`; with
`D = 1` a single chunk covering the whole workload is produced, while
with `D = 0` the run raises `ValueError` at pool creation (line 145),
before any chunk is produced.  The chunks of a successful run are
non-overlapping and concatenate, in submission order, to the prefix of
the first `min(step * step_size, N)` workload items; they cover `[0, N)`
exactly when `N <= step * step_size` — in particular whenever `D = 1` or
`D` divides `N` — but NOT in every case: when `0 < N % D` exceeds
`floor(N/D)` the final items are silently dropped (e.g. `N = 5, D = 3`). -/
theorem C5_multigpu_partition :
    (∀ X : List Nat, multigpu_chunks X 1 = .ok [X])
    ∧ (∀ (X Y : List Nat) (f : List Nat × List Nat → List Nat)
        (s : Option Int),
        multigpu_chunks X 0
            = (.error .valueError : Except PyErr (List (List Nat)))
        ∧ multigpu_run f (X, Y) 0 s = .error .valueError)
    ∧ (∀ (X : List Nat) (D : Nat) (cs : List (List Nat)), 1 < D →
        multigpu_chunks X D = .ok cs →
        cs.length = D + (if X.length % D ≠ 0 then 1 else 0)
        ∧ ∀ i, i < D →
            cs[i]? = some ((X.drop (i * (X.length / D))).take
              (X.length / D)))
    ∧ (∀ (X : List Nat) (D : Nat) (cs : List (List Nat)),
        multigpu_chunks X D = .ok cs →
        List.flatten cs
            = X.take (multigpu_step X.length D
                * multigpu_step_size X.length D)
        ∧ (List.flatten cs = X
            ↔ X.length ≤ multigpu_step X.length D
                * multigpu_step_size X.length D))
    ∧ (∀ (X : List Nat) (D : Nat) (cs : List (List Nat)), 1 < D →
        X.length % D = 0 → multigpu_chunks X D = .ok cs →
        List.flatten cs = X) := by
  have hok : ∀ (X : List Nat) (D : Nat), ¬ D < 1 →
      multigpu_chunks X D
        = .ok ((multigpu_slices X.length D).map (pySlice X)) := by
    intro X D hD
    unfold multigpu_chunks
    rw [if_neg hD]
  have hcs_eq : ∀ (X : List Nat) (D : Nat) (cs : List (List Nat)),
      multigpu_chunks X D = .ok cs →
      cs = (multigpu_slices X.length D).map (pySlice X) := by
    intro X D cs h
    by_cases hD : D < 1
    · unfold multigpu_chunks at h
      rw [if_pos hD] at h
      cases h
    · exact (Except.ok.inj ((hok X D hD).symm.trans h)).symm
  have hflat : ∀ (X : List Nat) (D : Nat),
      List.flatten ((multigpu_slices X.length D).map (pySlice X))
        = X.take (multigpu_step X.length D
            * multigpu_step_size X.length D) := by
    intro X D
    unfold multigpu_slices
    rw [List.map_map]
    have hfun : (pySlice X ∘ fun i =>
        (i * multigpu_step_size X.length D,
          min ((i + 1) * multigpu_step_size X.length D) X.length))
        = fun i => (X.drop (i * multigpu_step_size X.length D)).take
            (min ((i + 1) * multigpu_step_size X.length D) X.length
              - i * multigpu_step_size X.length D) := rfl
    rw [hfun, flatten_gpu_slices]
  refine ⟨?_, ?_, ?_, ?_, ?_⟩
  · intro X
    rw [hok X 1 (by omega)]
    refine congrArg Except.ok ?_
    unfold multigpu_slices multigpu_step multigpu_step_size
    rw [if_neg (by omega), if_neg (by omega),
      show List.range 1 = [0] from rfl]
    simp only [List.map_cons, List.map_nil]
    unfold pySlice
    simp only [Nat.zero_mul, Nat.zero_add, Nat.one_mul, Nat.min_self,
      List.drop_zero, Nat.sub_zero]
    rw [List.take_length]
  · intro X Y f s
    exact ⟨rfl, rfl⟩
  · intro X D cs hD h
    obtain rfl := hcs_eq X D cs h
    constructor
    · unfold multigpu_slices multigpu_step
      rw [if_pos hD, List.length_map, List.length_map, List.length_range]
    · intro i hi
      have hstep : i < multigpu_step X.length D := by
        unfold multigpu_step
        rw [if_pos hD]
        omega
      have hs : multigpu_step_size X.length D = X.length / D := by
        unfold multigpu_step_size
        rw [if_pos hD]
      unfold multigpu_slices
      rw [List.getElem?_map, List.getElem?_map, List.getElem?_range hstep]
      simp only [Option.map_some']
      have hmul : (i + 1) * (X.length / D) ≤ X.length := by
        calc (i + 1) * (X.length / D) ≤ D * (X.length / D) :=
              Nat.mul_le_mul_right _ (by omega)
          _ = X.length / D * D := Nat.mul_comm _ _
          _ ≤ X.length := Nat.div_mul_le_self _ _
      have hsm : (i + 1) * (X.length / D) = i * (X.length / D)
          + X.length / D := Nat.succ_mul _ _
      rw [hs]
      unfold pySlice
      simp only
      rw [show min ((i + 1) * (X.length / D)) X.length - i * (X.length / D)
        = X.length / D by omega]
  · intro X D cs h
    obtain rfl := hcs_eq X D cs h
    refine ⟨hflat X D, ?_⟩
    rw [hflat X D]
    constructor
    · intro h2
      by_contra hlt
      push_neg at hlt
      have := congrArg List.length h2
      rw [List.length_take] at this
      omega
    · intro h2
      exact List.take_of_length_le h2
  · intro X D cs hD hmod h
    obtain rfl := hcs_eq X D cs h
    rw [hflat X D]
    refine List.take_of_length_le ?_
    unfold multigpu_step multigpu_step_size
    rw [if_pos hD, if_pos hD, if_neg (by omega)]
    have h2 : X.length / D * D = X.length := Nat.div_mul_cancel
      (Nat.dvd_of_mod_eq_zero hmod)
    refine le_of_eq ?_
    calc X.length = X.length / D * D := h2.symm
      _ = D * (X.length / D) := Nat.mul_comm _ _
      _ = (D + 0) * (X.length / D) := by rw [Nat.add_zero]

/-- Counterexample to C5 as stated: for `N = 5, D = 3` the step size is
`floor(5/3) = 1` and four chunks `[0,1),[1,2),[2,3),[3,4)` are produced;
their concatenation misses the last workload item, so the chunks do not
cover `[0, N)`. -/
theorem C5_multigpu_partition_counterexample :
    multigpu_chunks (List.range 5) 3 = .ok [[0], [1], [2], [3]]
    ∧ List.flatten [[0], [1], [2], [3]] ≠ List.range 5 :=
  ⟨rfl, by decide⟩

/-- Witness for C5 (amended) at a concrete input with `D = 2` dividing
the workload length. -/
theorem C5_multigpu_partition_witness :
    List.flatten [[0, 1], [2, 3]] = List.range 4 :=
  C5_multigpu_partition.2.2.2.2 (List.range 4) 2 [[0, 1], [2, 3]]
    (by decide) (by decide) rfl

/-- C6 (amended): for device count `D > 0` the device queue built by
`multigpu_run` is a FIFO sequence of device ids whose `i`-th entry is
`i % D`, but its length is the CHUNK count `step`
(`D + (1 if N % D != 0 else 0)` for `D > 1`, `1` for `D = 1`), not the
worker-slot count of the pool (which is `gpu_count`); for `D = 0` no
device queue is built (it stays `None`, so workers run without device
affinity). -/
theorem C6_device_queue :
    (∀ (N D : Nat), 0 < D → ∃ q, device_queue N D = some q
      ∧ q.length = multigpu_step N D
      ∧ ∀ i (hi : i < q.length), q.get ⟨i, hi⟩ = i % D)
    ∧ ∀ (N : Nat), device_queue N 0 = none := by
  constructor
  · intro N D hD
    refine ⟨(List.range (multigpu_step N D)).map (fun dev => dev % D),
      ?_, ?_, ?_⟩
    · unfold device_queue
      rw [if_pos hD]
    · rw [List.length_map, List.length_range]
    · intro i hi
      simp only [List.get_eq_getElem, List.getElem_map, List.getElem_range]
  · intro N
    unfold device_queue
    rw [if_neg (by omega)]

/-- Counterexample to C6 as stated: for `D = 2` and a workload of length
`5`, the pool has `2` worker slots but the queue holds `3` device ids
(one per chunk), so the queue length is not the worker-slot count. -/
theorem C6_device_queue_counterexample :
    device_queue 5 2 = some [0, 1, 0]
    ∧ ((device_queue 5 2).getD []).length ≠ multigpu_pool_processes 2 := by
  decide

/-- Witness for C6 (amended) at a concrete input. -/
theorem C6_device_queue_witness : (device_queue 5 2).isSome = true := by
  obtain ⟨q, hq, _, _⟩ := C6_device_queue.1 5 2 (by decide)
  rw [hq]
  rfl

/-- C10: the result of `multigpu_run` does not depend on the
caller-supplied `step_size` argument — the source reassigns `step_size`
unconditionally in both branches of the `gpu_count` test (lines 130-136)
before any use, so two calls differing only in `step_size` produce the
same chunking and the same result. -/
theorem C10_step_size_ignored
    (f : List Nat × List Nat → List Nat) (data : List Nat × List Nat)
    (gpu_count : Nat) (s₁ s₂ : Option Int) :
    multigpu_run f data gpu_count s₁ = multigpu_run f data gpu_count s₂ :=
  rfl

/-- Model of the progress-tracked throttle bookkeeping of
`multiprocess_run` (source lines 31 and 58-63, `pbar` mode): after
submitting chunk `i`, if `process_counter == cpu_count+1` the submitter
calls `semaphores[process_counter].wait()` — the handle at the FIXED
index `process_counter`, whose value is `cpu_count+1` at that moment —
and resets the counter to `0`; otherwise it increments the counter.  The
result lists the `(submission index, waited handle index)` pairs in
order. -/
def mpWaitsAux (cpu_count : Nat) : List Nat → Nat → List (Nat × Nat)
  | [], _ => []
  | i :: rest, pc =>
    if pc = cpu_count + 1 then
      (i, cpu_count + 1) :: mpWaitsAux cpu_count rest 0
    else mpWaitsAux cpu_count rest (pc + 1)

/-- Wait events of the throttled submission loop over `nchunks` chunks. -/
def mpWaits (cpu_count nchunks : Nat) : List (Nat × Nat) :=
  mpWaitsAux cpu_count (List.range nchunks) 0

/-- Every wait of the throttled submitter targets the same fixed handle
index `cpu_count + 1`; no other handle — in particular never the oldest
outstanding one — is ever waited on by the submission loop. -/
theorem mpWaitsAux_fixed_index (cpu_count : Nat) :
    ∀ (l : List Nat) (pc : Nat) (p : Nat × Nat),
      p ∈ mpWaitsAux cpu_count l pc → p.2 = cpu_count + 1
  | [], _, p, hp => by cases hp
  | i :: rest, pc, p, hp => by
    rw [mpWaitsAux] at hp
    by_cases hpc : pc = cpu_count + 1
    · rw [if_pos hpc] at hp
      rcases List.mem_cons.mp hp with rfl | hp
      · rfl
      · exact mpWaitsAux_fixed_index cpu_count rest 0 p hp
    · rw [if_neg hpc] at hp
      exact mpWaitsAux_fixed_index cpu_count rest (pc + 1) p hp

/-- C8: evaluation of the throttle bookkeeping at `cpu_count = 1` with
`8` chunks submitted under a progress bar: waits occur after submissions
`2` and `5`, and both wait on the fixed handle index `2`
(`= cpu_count + 1`) — the second wait targets a handle that already
completed, and the oldest outstanding handle (index `0`) is never waited
on, so the number of unresolved buffered handles is not kept bounded by
the submitter. -/
theorem C8_throttle_eval : mpWaits 1 8 = [(2, 2), (5, 2)] := by decide

end ParallelUtils
